import Mathlib

/-!
Verification of the GWP-ASan guarded pool allocator
(`gwp_asan/guarded_pool_allocator.h` and the recoverable-mode tests).

The sampling gate (`shouldSample`, the `ThreadLocalPackedVariables`
constructor constants and the 31-bit `NextSampleCounter` bitfield, and the
default `AdjustedSampleRatePlusOne = 0`) is embedded directly from the
header. The bodies of `allocate`, `deallocate`, `reserveSlot`, `freeSlot`,
`stop` and `getRandomUnsigned32` are declared in the header but their
translation units are not part of this source tree; those operations are
modelled from the specification (each such definition carries a
`Modelled from the spec:` doc comment), constrained where possible by the
behaviour the in-tree recoverable-mode tests assert.

Machine integers are embedded as `Nat` with explicit reduction modulo
`2^32` (`uint32_t`) and `2^31` (the 31-bit `NextSampleCounter` bitfield).
-/

namespace GwpAsan

/-- The modulus of `uint32_t` arithmetic, `2^32`. -/
def U32 : Nat := 4294967296

/-- The modulus of the 31-bit bitfield `uint32_t NextSampleCounter : 31`
declared in `ThreadLocalPackedVariables`, `2^31`. -/
def U31 : Nat := 2147483648

/-- Modelled from the spec: the body of `getRandomUnsigned32` is not in the
source tree (only its declaration). The header describes it as "xorshift
(32-bit output)" and documents `getRandomUnsigned32(0xff82eb50) ==
0xfffffea4`; this is the standard xorshift32 step
`x ^= x << 13; x ^= x >> 17; x ^= x << 5` on `uint32_t`, which reproduces
the documented value. -/
def xorshift32 (x : Nat) : Nat :=
  let a := (Nat.xor x ((x <<< 13) % U32)) % U32
  let b := (Nat.xor a (a >>> 17)) % U32
  (Nat.xor b ((b <<< 5) % U32)) % U32

/-- The per-thread packed variables of the allocator
(`struct ThreadLocalPackedVariables`): a 32-bit PRNG state, a 31-bit
decrementing sample counter and the recursion guard bit. -/
structure ThreadLocalPackedVariables where
  RandomState : Nat
  NextSampleCounter : Nat
  RecursiveGuard : Bool
deriving Repr, DecidableEq

/-- The constexpr constructor values of `ThreadLocalPackedVariables`:
`RandomState(0xff82eb50), NextSampleCounter(0), RecursiveGuard(false)`. -/
def initThreadLocals : ThreadLocalPackedVariables :=
  { RandomState := 0xff82eb50, NextSampleCounter := 0, RecursiveGuard := false }

/-- The state read by `shouldSample`: the thread locals together with the
shared member `AdjustedSampleRatePlusOne` (zero in a value-initialised
allocator). -/
structure SamplerState where
  tl : ThreadLocalPackedVariables
  AdjustedSampleRatePlusOne : Nat
deriving Repr, DecidableEq

/-- The sampler state of a zero-initialised (never-`init`ed) allocator:
constructor-initialised thread locals and `AdjustedSampleRatePlusOne = 0`. -/
def zeroInitSampler : SamplerState :=
  { tl := initThreadLocals, AdjustedSampleRatePlusOne := 0 }

/-- The counter-regeneration expression of `shouldSample`
(`(getRandomUnsigned32() % (AdjustedSampleRatePlusOne - 1)) + 1`), assigned
into the 31-bit `NextSampleCounter` bitfield. The subtraction is `uint32_t`
subtraction, so `AdjustedSampleRatePlusOne = 0` underflows to `2^32 - 1`,
and the assignment truncates modulo `2^31`. -/
def regenCounter (randomState asrpo : Nat) : Nat :=
  ((xorshift32 randomState % ((asrpo + (U32 - 1)) % U32)) + 1) % U31

/-- `shouldSample` from `guarded_pool_allocator.h`: if the counter is zero,
regenerate it from the PRNG; then pre-decrement the 31-bit counter and
return whether it reached zero. Returns the result together with the
updated state. -/
def shouldSample (s : SamplerState) : Bool × SamplerState :=
  let cr :=
    if s.tl.NextSampleCounter = 0 then
      (regenCounter s.tl.RandomState s.AdjustedSampleRatePlusOne,
       xorshift32 s.tl.RandomState)
    else (s.tl.NextSampleCounter, s.tl.RandomState)
  let c' := (cr.1 + (U31 - 1)) % U31
  (decide (c' = 0),
   { s with tl := { RandomState := cr.2, NextSampleCounter := c',
                    RecursiveGuard := s.tl.RecursiveGuard } })

/-- Iterate `shouldSample` `n` times, keeping only the state. -/
def runSampler : Nat → SamplerState → SamplerState
  | 0, s => s
  | n + 1, s => runSampler n (shouldSample s).2

/-- The result of the `(n+1)`-st call to `shouldSample` starting from state
`s` (zero-indexed: `nthSample 0 s` is the first call's result). -/
def nthSample (n : Nat) (s : SamplerState) : Bool :=
  (shouldSample (runSampler n s)).1

/-! ## The pool model -/

/-- The error families of the detector that are attributed to a slot. -/
inductive ErrFamily
  | UseAfterFree
  | BufferOverflow
  | BufferUnderflow
  | DoubleFree
  | InvalidFree
deriving DecidableEq, Repr

/-- Modelled from the spec: the per-slot metadata record (`§3 Data model`):
recorded allocation address, requested size, the `is_live` and
`ever_deallocated` booleans and the recoverable-mode `had_error_reported`
flag. (Stack traces and thread IDs are not needed by any claim and are
omitted.) -/
structure SlotMeta where
  addr : Nat
  requestedSize : Nat
  isLive : Bool
  everDeallocated : Bool
  hadErrorReported : Bool
deriving DecidableEq, Repr

/-- The zero metadata record of a never-used slot. -/
def defaultMeta : SlotMeta :=
  { addr := 0, requestedSize := 0, isLive := false,
    everDeallocated := false, hadErrorReported := false }

/-- The configuration fixed at `init`: slot count
(`MaxSimultaneousAllocations`), page size, pool base address and the
`PerfectlyRightAlign` option. -/
structure PoolConfig where
  maxSimultaneousAllocations : Nat
  pageSize : Nat
  poolBase : Nat
  perfectlyRightAlign : Bool
deriving DecidableEq, Repr

/-- The mutable pool state: the slot metadata table, the
`NumSampledAllocations` counter, the `FreeSlots` set, the stop and disable
flags, the pool PRNG state, the calling thread's locals and
`AdjustedSampleRatePlusOne`. -/
structure PoolState where
  slots : List SlotMeta
  numSampledAllocations : Nat
  freeSlots : List Nat
  stopped : Bool
  disabled : Bool
  randomState : Nat
  tl : ThreadLocalPackedVariables
  asrpo : Nat
deriving DecidableEq, Repr

/-- The pool state just after `init`: all slots never-used, counters zero,
free-slot set empty, not stopped, not disabled. -/
def initState (cfg : PoolConfig) (seed asrpo : Nat) : PoolState :=
  { slots := List.replicate cfg.maxSimultaneousAllocations defaultMeta,
    numSampledAllocations := 0, freeSlots := [], stopped := false,
    disabled := false, randomState := seed, tl := initThreadLocals,
    asrpo := asrpo }

/-- Modelled from the spec: `pointer_is_mine` is an "address-range check
against pool base/size"; the pool is one contiguous mapping of `2N + 1`
pages where `N` is the slot count. -/
def pointerIsMine (cfg : PoolConfig) (p : Nat) : Bool :=
  decide (cfg.poolBase ≤ p ∧
    p < cfg.poolBase + (2 * cfg.maxSimultaneousAllocations + 1) * cfg.pageSize)

/-- Modelled from the spec: slot `i` occupies page `2i + 1` of the pool
mapping (each slot page is flanked by guard pages on both sides). -/
def slotPageStart (cfg : PoolConfig) (i : Nat) : Nat :=
  cfg.poolBase + (2 * i + 1) * cfg.pageSize

/-- Modelled from the spec: the natural alignment for a requested size,
"powers of two up to 16". -/
def alignOfSize (size : Nat) : Nat :=
  if 8 < size then 16
  else if 4 < size then 8
  else if 2 < size then 4
  else if 1 < size then 2
  else 1

/-- Round `x` down to a multiple of `a`. -/
def alignDown (x a : Nat) : Nat := x - x % a

/-- Modelled from the spec: the user pointer within the chosen slot page
(`§4.3` step 6). Right-aligned by default: `page_end - size` snapped down
to the natural alignment; `PerfectlyRightAlign` forces exact
`page_end - size`; a coin flip (taken here as the explicit argument
`leftAlign`) instead places the allocation at `page_start`. -/
def userPtr (cfg : PoolConfig) (i size : Nat) (leftAlign : Bool) : Nat :=
  if leftAlign then slotPageStart cfg i
  else if cfg.perfectlyRightAlign then
    slotPageStart cfg i + cfg.pageSize - size
  else alignDown (slotPageStart cfg i + cfg.pageSize - size) (alignOfSize size)

/-- Swap-remove the element at index `i`: overwrite it with the last
element and drop the last position. -/
def swapRemove (l : List Nat) (i : Nat) : List Nat :=
  (l.set i (l.getLast?.getD 0)).dropLast

/-- Modelled from the spec: `reserveSlot` (`§4.2`). Until the pool has
serviced `MaxSimultaneousAllocations` allocations, slots are drawn from the
monotonically increasing `NumSampledAllocations` counter; afterwards a
random index into the free set is chosen and swap-removed; an empty free
set reports no slot. -/
def reserveSlot (cfg : PoolConfig) (s : PoolState) : Option Nat × PoolState :=
  if s.numSampledAllocations < cfg.maxSimultaneousAllocations then
    (some s.numSampledAllocations,
     { s with numSampledAllocations := s.numSampledAllocations + 1 })
  else if s.freeSlots.length = 0 then (none, s)
  else
    let r := xorshift32 s.randomState
    let i := r % s.freeSlots.length
    (some (s.freeSlots.getD i 0),
     { s with freeSlots := swapRemove s.freeSlots i, randomState := r })

/-- The metadata recorded for a fresh allocation at address `p` of the
requested `size`: the slot becomes live; the `ever_deallocated` and
`had_error_reported` flags of the slot persist across re-allocation (the
in-tree test `OneErrorReportPerSlot` asserts that a slot that has already
reported produces no further report after being reused). -/
def allocMeta (old : SlotMeta) (p size : Nat) : SlotMeta :=
  { addr := p, requestedSize := size, isLive := true,
    everDeallocated := old.everDeallocated,
    hadErrorReported := old.hadErrorReported }

/-- The metadata of a slot after a valid free: no longer live,
`ever_deallocated` set. -/
def freedMeta (m : SlotMeta) : SlotMeta :=
  { m with isLive := false, everDeallocated := true }

/-- The metadata of a slot after its first error report:
`had_error_reported` set. -/
def reportedMeta (m : SlotMeta) : SlotMeta :=
  { m with hadErrorReported := true }

/-- Modelled from the spec: `allocate` (`§4.3`). Rejects (returning no
pointer and leaving the state unchanged) when the size is zero or exceeds
the page size, the pool is stopped or disabled, the thread's
`RecursiveGuard` is set, or no slot can be reserved; otherwise reserves a
slot, computes the user pointer within its page and records the metadata
(address, size, `is_live`). Returns the reserved slot index with the
pointer. The `had_error_reported` flag of the slot is preserved across
re-allocation: the in-tree test `OneErrorReportPerSlot` asserts that a slot
that has already reported produces no further report after being reused. -/
def allocate (cfg : PoolConfig) (s : PoolState) (size : Nat)
    (leftAlign : Bool) : Option (Nat × Nat) × PoolState :=
  if size = 0 ∨ cfg.pageSize < size ∨ s.stopped = true ∨ s.disabled = true ∨
      s.tl.RecursiveGuard = true then
    (none, s)
  else
    match reserveSlot cfg s with
    | (none, _) => (none, s)
    | (some i, s') =>
      let p := userPtr cfg i size leftAlign
      let m := allocMeta (s'.slots.getD i defaultMeta) p size
      (some (i, p), { s' with slots := s'.slots.set i m })

/-- Modelled from the spec: map an in-pool pointer to its slot index by
pool-relative arithmetic, clamped to a valid slot index (the nearest-slot
computation). A pointer in slot page `2i + 1` maps to `i`. -/
def slotOfPtr (cfg : PoolConfig) (p : Nat) : Nat :=
  min (((p - cfg.poolBase) / cfg.pageSize - 1) / 2)
    (cfg.maxSimultaneousAllocations - 1)

/-- The classification a `deallocate` call gives the event. -/
inductive FreeKind
  | Valid
  | DoubleFreeK
  | InvalidFreeK
  | OutOfPool
deriving DecidableEq, Repr

/-- Modelled from the spec: the error classification of `deallocate`
(`§4.3`): out-of-pool pointers are rejected; a non-live slot with
`ever_deallocated` set and a matching recorded address is a double free; a
live slot with a pointer differing from the recorded allocation base is an
invalid free; every other in-pool case is a valid free. -/
def classifyFree (cfg : PoolConfig) (s : PoolState) (p : Nat) : FreeKind :=
  if pointerIsMine cfg p = false then .OutOfPool
  else if (s.slots.getD (slotOfPtr cfg p) defaultMeta).isLive = false ∧
      (s.slots.getD (slotOfPtr cfg p) defaultMeta).everDeallocated = true ∧
      p = (s.slots.getD (slotOfPtr cfg p) defaultMeta).addr then .DoubleFreeK
  else if (s.slots.getD (slotOfPtr cfg p) defaultMeta).isLive = true ∧
      p ≠ (s.slots.getD (slotOfPtr cfg p) defaultMeta).addr then .InvalidFreeK
  else .Valid

/-- Modelled from the spec: `deallocate` (`§4.3`). After `stop` no further
slot transitions occur (`§3 Lifecycle`). A valid free marks the slot
non-live, sets `ever_deallocated` and returns the slot to the free set. A
double or invalid free is reported through the recoverable policy
(`§4.4`): if the slot's `had_error_reported` flag is already set the event
is a silent no-op, otherwise the flag is set and one report `(slot,
family)` is emitted. -/
def deallocate (cfg : PoolConfig) (s : PoolState) (p : Nat) :
    PoolState × Option (Nat × ErrFamily) :=
  if s.stopped = true then (s, none)
  else
    match classifyFree cfg s p with
    | .OutOfPool => (s, none)
    | .Valid =>
      ({ s with slots := s.slots.set (slotOfPtr cfg p) (freedMeta (s.slots.getD (slotOfPtr cfg p) defaultMeta)), freeSlots := s.freeSlots ++ [slotOfPtr cfg p] }, none)
    | .DoubleFreeK =>
      if (s.slots.getD (slotOfPtr cfg p) defaultMeta).hadErrorReported = true then
        (s, none)
      else
        ({ s with slots := s.slots.set (slotOfPtr cfg p) (reportedMeta (s.slots.getD (slotOfPtr cfg p) defaultMeta)) }, some (slotOfPtr cfg p, .DoubleFree))
    | .InvalidFreeK =>
      if (s.slots.getD (slotOfPtr cfg p) defaultMeta).hadErrorReported = true then
        (s, none)
      else
        ({ s with slots := s.slots.set (slotOfPtr cfg p) (reportedMeta (s.slots.getD (slotOfPtr cfg p) defaultMeta)) }, some (slotOfPtr cfg p, .InvalidFree))

/-- Modelled from the spec: a hardware fault on a pool page attributed to
slot `i` with family `fam`, handled by the recoverable crash handler
(`§4.4`): if the slot's `had_error_reported` flag is set the fault is a
silent no-op, otherwise one report is emitted and the flag is set. Faults
are attributed only to real slots of the pool. -/
def faultStep (s : PoolState) (i : Nat) (fam : ErrFamily) :
    PoolState × Option (Nat × ErrFamily) :=
  if i < s.slots.length then
    if (s.slots.getD i defaultMeta).hadErrorReported = true then (s, none)
    else
      ({ s with slots := s.slots.set i (reportedMeta (s.slots.getD i defaultMeta)) }, some (i, fam))
  else (s, none)

/-- Modelled from the spec: `stop()` "sets a flag that causes
`shouldSample` to always return false and `allocate` to refuse. It is
one-way." The gate at the pool level consults the flag; a stopped pool
never samples. -/
def sysShouldSample (s : PoolState) : Bool × PoolState :=
  if s.stopped = true then (false, s)
  else
    let br := shouldSample { tl := s.tl, AdjustedSampleRatePlusOne := s.asrpo }
    (br.1, { s with tl := br.2.tl })

/-- The operations a client (or the hardware) can perform on the pool. -/
inductive Op
  | alloc (size : Nat) (leftAlign : Bool)
  | dealloc (p : Nat)
  | fault (slot : Nat) (fam : ErrFamily)
  | sample
  | stopOp
  | disableOp
  | enableOp
deriving DecidableEq, Repr

/-- The observable outcome of one operation. -/
inductive Res
  | ptr : Option Nat → Res
  | reported : Option (Nat × ErrFamily) → Res
  | sampled : Bool → Res
  | unit : Res
deriving DecidableEq, Repr

/-- One step of the pool state machine. -/
def step (cfg : PoolConfig) (s : PoolState) : Op → PoolState × Res
  | .alloc size leftAlign =>
    let rs := allocate cfg s size leftAlign
    (rs.2, .ptr (rs.1.map (·.2)))
  | .dealloc p =>
    let sr := deallocate cfg s p
    (sr.1, .reported sr.2)
  | .fault i fam =>
    let sr := faultStep s i fam
    (sr.1, .reported sr.2)
  | .sample =>
    let bs := sysShouldSample s
    (bs.2, .sampled bs.1)
  | .stopOp => ({ s with stopped := true }, .unit)
  | .disableOp => ({ s with disabled := true }, .unit)
  | .enableOp => ({ s with disabled := false }, .unit)

/-- Run a sequence of operations, keeping the final state. -/
def run (cfg : PoolConfig) : PoolState → List Op → PoolState
  | s, [] => s
  | s, op :: ops => run cfg (step cfg s op).1 ops

/-- Run a sequence of operations, keeping the outcome of each. -/
def outputs (cfg : PoolConfig) : PoolState → List Op → List Res
  | _, [] => []
  | s, op :: ops => (step cfg s op).2 :: outputs cfg (step cfg s op).1 ops

/-- The slot indices reserved by the successful allocations of a run, in
order. -/
def allocIdxs (cfg : PoolConfig) : PoolState → List Op → List Nat
  | _, [] => []
  | s, op :: ops =>
    let rest := allocIdxs cfg (step cfg s op).1 ops
    match op with
    | .alloc size leftAlign =>
      match (allocate cfg s size leftAlign).1 with
      | some ip => ip.1 :: rest
      | none => rest
    | _ => rest

/-- The number of `Live` slots of a state. -/
def liveCount (s : PoolState) : Nat := s.slots.countP (·.isLive)

/-- The `Never-Used`/`Live`/`Freed` observable of every slot: the pair
`(is_live, ever_deallocated)` per slot. -/
def slotStates (s : PoolState) : List (Bool × Bool) :=
  s.slots.map (fun m => (m.isLive, m.everDeallocated))

/-- The `had_error_reported` flag of slot `i`. -/
def flagAt (s : PoolState) (i : Nat) : Bool :=
  (s.slots.getD i defaultMeta).hadErrorReported

end GwpAsan

namespace GwpAsan

/-! ## Sampling-gate lemmas -/

theorem shouldSample_nonzero (rs c : Nat) (g : Bool) (a : Nat)
    (h1 : c ≠ 0) (h2 : c < U31) :
    shouldSample ⟨⟨rs, c, g⟩, a⟩ = (decide (c - 1 = 0), ⟨⟨rs, c - 1, g⟩, a⟩) := by
  have hmod : (c + (U31 - 1)) % U31 = c - 1 := by
    have h3 : c + (U31 - 1) = (c - 1) + 1 * U31 := by
      have : 0 < U31 := by decide
      omega
    rw [h3, Nat.add_mul_mod_self_right, Nat.mod_eq_of_lt]
    omega
  unfold shouldSample
  simp only [if_neg h1, hmod]

theorem runSampler_succ (n : Nat) (s : SamplerState) :
    runSampler (n + 1) s = runSampler n (shouldSample s).2 := rfl

theorem nthSample_succ (n : Nat) (s : SamplerState) :
    nthSample (n + 1) s = nthSample n (shouldSample s).2 := rfl

theorem runSampler_nonzero (n : Nat) :
    ∀ (c rs : Nat) (g : Bool) (a : Nat), n < c → c < U31 →
      runSampler n ⟨⟨rs, c, g⟩, a⟩ = ⟨⟨rs, c - n, g⟩, a⟩ := by
  induction n with
  | zero =>
    intro c rs g a _ _
    simp [runSampler]
  | succ n ih =>
    intro c rs g a h1 h2
    rw [runSampler_succ, shouldSample_nonzero rs c g a (by omega) h2]
    have h4 : c - 1 - n = c - (n + 1) := by omega
    rw [ih (c - 1) rs g a (by omega) (by omega), h4]

theorem nthSample_nonzero (n c rs : Nat) (g : Bool) (a : Nat)
    (h1 : n < c) (h2 : c < U31) :
    nthSample n ⟨⟨rs, c, g⟩, a⟩ = decide (c - n - 1 = 0) := by
  unfold nthSample
  rw [runSampler_nonzero n c rs g a h1 h2,
      shouldSample_nonzero rs (c - n) g a (by omega) (by omega)]

theorem shouldSample_zeroInit :
    shouldSample zeroInitSampler =
      (false, ⟨⟨4294966948, 2147483300, false⟩, 0⟩) := by decide

/-- C2 counterexample: the claim "shouldSample on a zero-initialized pool
returns false for at least 2^31 consecutive calls" is false: the
2147483301-st call (zero-indexed call 2147483300), which lies within the
first `2^31` calls, returns true. -/
theorem zeroInit_sample_true_within_two_pow_31 :
    2147483301 ≤ 2 ^ 31 ∧ nthSample 2147483300 zeroInitSampler = true := by
  refine ⟨by norm_num, ?_⟩
  have h : (2147483300 : Nat) = 2147483299 + 1 := by norm_num
  rw [h, nthSample_succ, shouldSample_zeroInit,
      nthSample_nonzero 2147483299 2147483300 4294966948 false 0
        (by norm_num) (by decide)]
  norm_num

/-- C2 (amended): on a zero-initialized pool, `shouldSample` returns false
for the first 2147483300 (= 2^31 - 348) consecutive calls on a single
thread; the 2147483301-st call is the first to return true. -/
theorem zeroInit_no_sample_before_2147483300 (n : Nat)
    (h : n < 2147483300) : nthSample n zeroInitSampler = false := by
  match n, h with
  | 0, _ => decide
  | m + 1, h =>
    rw [nthSample_succ, shouldSample_zeroInit,
        nthSample_nonzero m 2147483300 4294966948 false 0 (by omega) (by decide)]
    simp only [decide_eq_false_iff_not]
    omega

theorem zeroInit_no_sample_before_2147483300_witness :
    0 < 2147483300 ∧ nthSample 0 zeroInitSampler = false :=
  ⟨by norm_num, zeroInit_no_sample_before_2147483300 0 (by norm_num)⟩

/-- The value stored into `NextSampleCounter` by one `shouldSample` call
before the pre-decrement: the regenerated value when the counter is zero,
the counter itself otherwise (for an initialised pool with
`AdjustedSampleRatePlusOne = SampleRate + 1`). -/
def nextCounterValue (rs c sampleRate : Nat) : Nat :=
  if c = 0 then xorshift32 rs % sampleRate + 1 else c

theorem shouldSample_zero (rs : Nat) (g : Bool) (a : Nat) :
    shouldSample ⟨⟨rs, 0, g⟩, a⟩ =
      (decide ((regenCounter rs a + (U31 - 1)) % U31 = 0),
       ⟨⟨xorshift32 rs, (regenCounter rs a + (U31 - 1)) % U31, g⟩, a⟩) := by
  unfold shouldSample
  simp

/-- C6: `shouldSample` on an initialised pool
(`AdjustedSampleRatePlusOne = SampleRate + 1`): a zero counter is
regenerated to `rand32 % SampleRate + 1`, a value ranging over exactly
`[1, SampleRate]`; the counter is then decremented, and the call returns
true exactly when the decremented counter equals zero. -/
theorem shouldSample_counter_mechanics (rs c : Nat) (g : Bool)
    (S : Nat) (hc : c < U31) (hS1 : 1 ≤ S) (hS2 : S < U31) :
    (shouldSample ⟨⟨rs, c, g⟩, S + 1⟩).2.tl.NextSampleCounter =
        nextCounterValue rs c S - 1 ∧
    (c = 0 → 1 ≤ nextCounterValue rs c S ∧ nextCounterValue rs c S ≤ S) ∧
    ((shouldSample ⟨⟨rs, c, g⟩, S + 1⟩).1 = true ↔
        nextCounterValue rs c S - 1 = 0) ∧
    (∀ v, 1 ≤ v → v ≤ S → ∃ r, r < U32 ∧ r % S + 1 = v) := by
  have h31 : U31 = 2147483648 := rfl
  have h32 : U32 = 4294967296 := rfl
  have hsur : ∀ v, 1 ≤ v → v ≤ S → ∃ r, r < U32 ∧ r % S + 1 = v := by
    intro v hv1 hv2
    refine ⟨v - 1, by omega, ?_⟩
    rw [Nat.mod_eq_of_lt (by omega)]
    omega
  by_cases h0 : c = 0
  · subst h0
    have hmlt : xorshift32 rs % S < S := Nat.mod_lt _ (by omega)
    have hval : nextCounterValue rs 0 S = xorshift32 rs % S + 1 := by
      unfold nextCounterValue
      rw [if_pos rfl]
    have hregen : regenCounter rs (S + 1) = xorshift32 rs % S + 1 := by
      unfold regenCounter
      have e2 : S + 1 + (U32 - 1) = S + 1 * U32 := by omega
      rw [e2, Nat.add_mul_mod_self_right,
          Nat.mod_eq_of_lt (show S < U32 by omega),
          Nat.mod_eq_of_lt (show xorshift32 rs % S + 1 < U31 by omega)]
    have hdec : (regenCounter rs (S + 1) + (U31 - 1)) % U31 =
        xorshift32 rs % S := by
      rw [hregen]
      have e3 : xorshift32 rs % S + 1 + (U31 - 1) =
          xorshift32 rs % S + 1 * U31 := by omega
      rw [e3, Nat.add_mul_mod_self_right,
          Nat.mod_eq_of_lt (show xorshift32 rs % S < U31 by omega)]
    rw [shouldSample_zero, hdec, hval]
    refine ⟨?_, fun _ => by omega, ?_, hsur⟩
    · show xorshift32 rs % S = xorshift32 rs % S + 1 - 1
      omega
    · show decide (xorshift32 rs % S = 0) = true ↔ xorshift32 rs % S + 1 - 1 = 0
      simp only [decide_eq_true_eq]
      omega
  · rw [shouldSample_nonzero rs c g (S + 1) h0 hc]
    have hval : nextCounterValue rs c S = c := by
      unfold nextCounterValue
      rw [if_neg h0]
    rw [hval]
    exact ⟨rfl, fun h => absurd h h0, by simp, hsur⟩

theorem shouldSample_counter_mechanics_witness :
    ((0:Nat) < U31 ∧ 1 ≤ 1 ∧ (1:Nat) < U31) ∧
    ((shouldSample ⟨⟨0, 0, false⟩, 1 + 1⟩).2.tl.NextSampleCounter =
        nextCounterValue 0 0 1 - 1 ∧
     ((0:Nat) = 0 → 1 ≤ nextCounterValue 0 0 1 ∧ nextCounterValue 0 0 1 ≤ 1) ∧
     ((shouldSample ⟨⟨0, 0, false⟩, 1 + 1⟩).1 = true ↔
        nextCounterValue 0 0 1 - 1 = 0) ∧
     (∀ v, 1 ≤ v → v ≤ 1 → ∃ r, r < U32 ∧ r % 1 + 1 = v)) :=
  ⟨⟨by decide, le_refl 1, by decide⟩,
   shouldSample_counter_mechanics 0 0 false 1 (by decide) (le_refl 1) (by decide)⟩

/-- C10: the first `getRandomUnsigned32` call of a zero-initialized
allocator (xorshift32 on the constructor seed `0xff82eb50`) returns exactly
`0xfffffea4`, matching the header's documentation, and the first
regenerated `NextSampleCounter` value is `(0xfffffea4 mod (2^32 - 1)) + 1`
truncated to the 31-bit counter field, namely `0x7ffffea5`. -/
theorem firstRandom_and_firstCounter :
    xorshift32 0xff82eb50 = 0xfffffea4 ∧
    regenCounter 0xff82eb50 0 = (0xfffffea4 % (U32 - 1) + 1) % U31 ∧
    regenCounter 0xff82eb50 0 = 0x7ffffea5 ∧
    (shouldSample zeroInitSampler).2.tl.RandomState = 0xfffffea4 := by
  decide

end GwpAsan

namespace GwpAsan

/-! ## List helpers -/

theorem getD_set_self {α : Type _} (l : List α) (i : Nat) (x d : α)
    (h : i < l.length) : (l.set i x).getD i d = x := by
  induction l generalizing i with
  | nil => simp at h
  | cons a t ih =>
    cases i with
    | zero => rfl
    | succ n =>
      simp only [List.set, List.getD, List.getElem?_cons_succ]
      exact ih n (by simpa using h)

theorem getD_set_ne {α : Type _} (l : List α) (i j : Nat) (x d : α)
    (h : i ≠ j) : (l.set i x).getD j d = l.getD j d := by
  induction l generalizing i j with
  | nil => rfl
  | cons a t ih =>
    cases i with
    | zero =>
      cases j with
      | zero => exact absurd rfl h
      | succ m => rfl
    | succ n =>
      cases j with
      | zero => rfl
      | succ m =>
        simp only [List.set, List.getD, List.getElem?_cons_succ]
        exact ih n m (by omega)

theorem getD_of_len_le {α : Type _} (l : List α) (i : Nat) (d : α)
    (h : l.length ≤ i) : l.getD i d = d := by
  induction l generalizing i with
  | nil => rfl
  | cons a t ih =>
    cases i with
    | zero => simp at h
    | succ n =>
      simp only [List.getD, List.getElem?_cons_succ]
      exact ih n (by simpa using h)

theorem getD_replicate {α : Type _} (n i : Nat) (d : α) :
    (List.replicate n d).getD i d = d := by
  induction n generalizing i with
  | zero => rfl
  | succ m ih =>
    cases i with
    | zero => rfl
    | succ k =>
      simp only [List.replicate, List.getD, List.getElem?_cons_succ]
      exact ih k

theorem set_getD_self {α : Type _} (l : List α) (i : Nat) (d : α) :
    l.set i (l.getD i d) = l := by
  induction l generalizing i with
  | nil => rfl
  | cons a t ih =>
    cases i with
    | zero => rfl
    | succ n =>
      simp only [List.set, List.getD, List.getElem?_cons_succ, List.cons.injEq,
        true_and]
      exact ih n

theorem map_set_getD {α β : Type _} (f : α → β) (l : List α) (i : Nat)
    (x d : α) (h : f x = f (l.getD i d)) :
    (l.set i x).map f = l.map f := by
  induction l generalizing i with
  | nil => rfl
  | cons a t ih =>
    cases i with
    | zero =>
      simp only [List.getD, List.getElem?_cons_zero, Option.getD_some] at h
      simp [List.set, h]
    | succ n =>
      simp only [List.getD, List.getElem?_cons_succ] at h
      simp only [List.set, List.map, List.cons.injEq, true_and]
      exact ih n h

theorem mem_swapRemove (l : List Nat) (i x : Nat) (h : x ∈ swapRemove l i) :
    x ∈ l := by
  unfold swapRemove at h
  have h1 : x ∈ l.set i (l.getLast?.getD 0) := List.dropLast_subset _ h
  rcases List.mem_or_eq_of_mem_set h1 with h2 | h2
  · exact h2
  · subst h2
    cases l with
    | nil => simp [List.set] at h
    | cons a t =>
      have : (a :: t).getLast? = some ((a :: t).getLast (by simp)) := by
        simp [List.getLast?_eq_getLast]
      rw [this]
      exact List.getLast_mem _

/-! ## Shape lemmas for the pool operations -/

theorem reserveSlot_of_lt (cfg : PoolConfig) (s : PoolState)
    (h : s.numSampledAllocations < cfg.maxSimultaneousAllocations) :
    reserveSlot cfg s =
      (some s.numSampledAllocations,
       { s with numSampledAllocations := s.numSampledAllocations + 1 }) := by
  unfold reserveSlot
  rw [if_pos h]

theorem reserveSlot_shape (cfg : PoolConfig) (s : PoolState) :
    reserveSlot cfg s =
      (some s.numSampledAllocations,
       { s with numSampledAllocations := s.numSampledAllocations + 1 }) ∧
      s.numSampledAllocations < cfg.maxSimultaneousAllocations ∨
    ¬ s.numSampledAllocations < cfg.maxSimultaneousAllocations ∧
      (reserveSlot cfg s = (none, s) ∧ s.freeSlots = [] ∨
       ∃ j, j < s.freeSlots.length ∧
         reserveSlot cfg s =
           (some (s.freeSlots.getD j 0),
            { s with freeSlots := swapRemove s.freeSlots j,
                     randomState := xorshift32 s.randomState })) := by
  by_cases h : s.numSampledAllocations < cfg.maxSimultaneousAllocations
  · exact Or.inl ⟨reserveSlot_of_lt cfg s h, h⟩
  · refine Or.inr ⟨h, ?_⟩
    by_cases h2 : s.freeSlots.length = 0
    · refine Or.inl ⟨?_, List.length_eq_zero.mp h2⟩
      unfold reserveSlot
      rw [if_neg h, if_pos h2]
    · refine Or.inr ⟨xorshift32 s.randomState % s.freeSlots.length,
        Nat.mod_lt _ (by omega), ?_⟩
      unfold reserveSlot
      rw [if_neg h, if_neg h2]

theorem allocate_shape (cfg : PoolConfig) (s : PoolState) (size : Nat)
    (la : Bool) :
    allocate cfg s size la = (none, s) ∨
    ¬ (size = 0 ∨ cfg.pageSize < size ∨ s.stopped = true ∨
        s.disabled = true ∨ s.tl.RecursiveGuard = true) ∧
      ∃ i s₁, reserveSlot cfg s = (some i, s₁) ∧
        allocate cfg s size la =
          (some (i, userPtr cfg i size la),
           { s₁ with slots := s₁.slots.set i (allocMeta (s₁.slots.getD i defaultMeta) (userPtr cfg i size la) size) }) := by
  unfold allocate
  split
  · exact Or.inl rfl
  · rename_i hcond
    split
    · exact Or.inl rfl
    · rename_i i s₁ heq
      exact Or.inr ⟨hcond, i, s₁, heq, rfl⟩

theorem classify_doubleFree (cfg : PoolConfig) (s : PoolState) (p : Nat)
    (h : classifyFree cfg s p = .DoubleFreeK) :
    (s.slots.getD (slotOfPtr cfg p) defaultMeta).isLive = false ∧
    (s.slots.getD (slotOfPtr cfg p) defaultMeta).everDeallocated = true ∧
    p = (s.slots.getD (slotOfPtr cfg p) defaultMeta).addr := by
  unfold classifyFree at h
  split at h
  · cases h
  · split at h
    · assumption
    · split at h
      · cases h
      · cases h

theorem classify_invalidFree (cfg : PoolConfig) (s : PoolState) (p : Nat)
    (h : classifyFree cfg s p = .InvalidFreeK) :
    (s.slots.getD (slotOfPtr cfg p) defaultMeta).isLive = true ∧
    p ≠ (s.slots.getD (slotOfPtr cfg p) defaultMeta).addr := by
  unfold classifyFree at h
  split at h
  · cases h
  · split at h
    · cases h
    · split at h
      · assumption
      · cases h

theorem deallocate_shape (cfg : PoolConfig) (s : PoolState) (p : Nat) :
    deallocate cfg s p = (s, none) ∨
    deallocate cfg s p =
      ({ s with slots := s.slots.set (slotOfPtr cfg p) (freedMeta (s.slots.getD (slotOfPtr cfg p) defaultMeta)), freeSlots := s.freeSlots ++ [slotOfPtr cfg p] }, none) ∨
    ∃ fam,
      (s.slots.getD (slotOfPtr cfg p) defaultMeta).hadErrorReported = false ∧
      ((s.slots.getD (slotOfPtr cfg p) defaultMeta).everDeallocated = true ∨
       (s.slots.getD (slotOfPtr cfg p) defaultMeta).isLive = true) ∧
      deallocate cfg s p =
        ({ s with slots := s.slots.set (slotOfPtr cfg p) (reportedMeta (s.slots.getD (slotOfPtr cfg p) defaultMeta)) }, some (slotOfPtr cfg p, fam)) := by
  unfold deallocate
  split
  · exact Or.inl rfl
  · split
    · exact Or.inl rfl
    · exact Or.inr (Or.inl rfl)
    · rename_i heq
      rcases classify_doubleFree cfg s p heq with ⟨_, h2, _⟩
      by_cases hflag :
          (s.slots.getD (slotOfPtr cfg p) defaultMeta).hadErrorReported = true
      · rw [if_pos hflag]
        exact Or.inl rfl
      · rw [if_neg hflag]
        exact Or.inr (Or.inr ⟨.DoubleFree, by simpa using hflag,
          Or.inl h2, rfl⟩)
    · rename_i heq
      rcases classify_invalidFree cfg s p heq with ⟨h2, _⟩
      by_cases hflag :
          (s.slots.getD (slotOfPtr cfg p) defaultMeta).hadErrorReported = true
      · rw [if_pos hflag]
        exact Or.inl rfl
      · rw [if_neg hflag]
        exact Or.inr (Or.inr ⟨.InvalidFree, by simpa using hflag,
          Or.inr h2, rfl⟩)

theorem faultStep_shape (s : PoolState) (i : Nat) (fam : ErrFamily) :
    faultStep s i fam = (s, none) ∨
    i < s.slots.length ∧
      (s.slots.getD i defaultMeta).hadErrorReported = false ∧
      faultStep s i fam =
        ({ s with slots := s.slots.set i (reportedMeta (s.slots.getD i defaultMeta)) }, some (i, fam)) := by
  unfold faultStep
  split
  · rename_i hlen
    by_cases hflag : (s.slots.getD i defaultMeta).hadErrorReported = true
    · rw [if_pos hflag]
      exact Or.inl rfl
    · rw [if_neg hflag]
      exact Or.inr ⟨hlen, by simpa using hflag, rfl⟩
  · exact Or.inl rfl

theorem sysShouldSample_shape (s : PoolState) :
    (sysShouldSample s).2 = { s with tl := (sysShouldSample s).2.tl } ∧
    (s.stopped = true → sysShouldSample s = (false, s)) := by
  constructor
  · unfold sysShouldSample
    split
    · rfl
    · rfl
  · intro h
    unfold sysShouldSample
    rw [if_pos h]

end GwpAsan

namespace GwpAsan

/-! ## Step-level invariants -/

theorem step_slots_length (cfg : PoolConfig) (s : PoolState) (op : Op) :
    ((step cfg s op).1).slots.length = s.slots.length := by
  cases op with
  | alloc size la =>
    rcases allocate_shape cfg s size la with h | ⟨_, i, s₁, hres, h⟩
    · show (allocate cfg s size la).2.slots.length = _
      rw [h]
    · show (allocate cfg s size la).2.slots.length = _
      rw [h]
      simp only [List.length_set]
      have : s₁.slots = s.slots := by
        rcases reserveSlot_shape cfg s with ⟨he, _⟩ | ⟨_, ⟨he, _⟩ | ⟨j, _, he⟩⟩ <;>
          rw [he] at hres <;> cases hres <;> rfl
      rw [this]
  | dealloc p =>
    rcases deallocate_shape cfg s p with h | h | ⟨fam, _, _, h⟩
    · show (deallocate cfg s p).1.slots.length = _
      rw [h]
    · show (deallocate cfg s p).1.slots.length = _
      rw [h]
      simp [List.length_set]
    · show (deallocate cfg s p).1.slots.length = _
      rw [h]
      simp [List.length_set]
  | fault i fam =>
    rcases faultStep_shape s i fam with h | ⟨_, _, h⟩
    · show (faultStep s i fam).1.slots.length = _
      rw [h]
    · show (faultStep s i fam).1.slots.length = _
      rw [h]
      simp [List.length_set]
  | sample =>
    show (sysShouldSample s).2.slots.length = _
    rw [(sysShouldSample_shape s).1]
  | stopOp => rfl
  | disableOp => rfl
  | enableOp => rfl

theorem run_slots_length (cfg : PoolConfig) (ops : List Op) :
    ∀ s : PoolState, (run cfg s ops).slots.length = s.slots.length := by
  induction ops with
  | nil => intro s; rfl
  | cons op ops ih =>
    intro s
    show (run cfg (step cfg s op).1 ops).slots.length = _
    rw [ih, step_slots_length]

/-- C8: in every state reachable from the initial pool state by any
sequence of operations, the number of `Live` slots is at most
`MaxSimultaneousAllocations` (the slot table has exactly that many
entries). -/
theorem live_slots_bounded (cfg : PoolConfig) (seed asrpo : Nat)
    (ops : List Op) :
    liveCount (run cfg (initState cfg seed asrpo) ops) ≤
      cfg.maxSimultaneousAllocations := by
  have h1 : liveCount (run cfg (initState cfg seed asrpo) ops) ≤
      (run cfg (initState cfg seed asrpo) ops).slots.length :=
    List.countP_le_length _
  rw [run_slots_length cfg ops (initState cfg seed asrpo)] at h1
  simpa [initState] using h1

end GwpAsan

namespace GwpAsan

/-! ## The recoverable one-report-per-slot policy -/

theorem set_of_len_le {α : Type _} (l : List α) (i : Nat) (x : α)
    (h : l.length ≤ i) : l.set i x = l := by
  induction l generalizing i with
  | nil => rfl
  | cons a t ih =>
    cases i with
    | zero => simp at h
    | succ n =>
      simp only [List.set, List.cons.injEq, true_and]
      exact ih n (by simpa using h)

theorem getD_set_flag (l : List SlotMeta) (i j : Nat) (m : SlotMeta) :
    ((l.set i m).getD j defaultMeta).hadErrorReported =
      if i = j ∧ i < l.length then m.hadErrorReported
      else (l.getD j defaultMeta).hadErrorReported := by
  by_cases h1 : i = j
  · subst h1
    by_cases h2 : i < l.length
    · rw [getD_set_self _ _ _ _ h2, if_pos ⟨rfl, h2⟩]
    · rw [set_of_len_le _ _ _ (by omega), if_neg (by tauto)]
  · rw [getD_set_ne _ _ _ _ _ h1, if_neg (by tauto)]

theorem flagAt_mono_step (cfg : PoolConfig) (s : PoolState) (op : Op)
    (j : Nat) (h : flagAt s j = true) : flagAt (step cfg s op).1 j = true := by
  cases op with
  | alloc size la =>
    rcases allocate_shape cfg s size la with hsh | ⟨_, i, s₁, hres, hsh⟩
    · show flagAt (allocate cfg s size la).2 j = true
      rw [hsh]
      exact h
    · have hslots : s₁.slots = s.slots := by
        rcases reserveSlot_shape cfg s with ⟨he, _⟩ | ⟨_, ⟨he, _⟩ | ⟨k, _, he⟩⟩ <;>
          rw [he] at hres <;> cases hres <;> rfl
      show flagAt (allocate cfg s size la).2 j = true
      rw [hsh]
      unfold flagAt at h ⊢
      simp only [hslots]
      rw [getD_set_flag]
      split
      · rename_i hcase
        rcases hcase with ⟨hij, _⟩
        subst hij
        simpa [allocMeta] using h
      · exact h
  | dealloc p =>
    rcases deallocate_shape cfg s p with hsh | hsh | ⟨fam, _, _, hsh⟩
    · show flagAt (deallocate cfg s p).1 j = true
      rw [hsh]
      exact h
    · show flagAt (deallocate cfg s p).1 j = true
      rw [hsh]
      unfold flagAt at h ⊢
      rw [getD_set_flag]
      split
      · rename_i hcase
        rcases hcase with ⟨hij, _⟩
        rw [← hij] at h
        simpa [freedMeta] using h
      · exact h
    · show flagAt (deallocate cfg s p).1 j = true
      rw [hsh]
      unfold flagAt at h ⊢
      rw [getD_set_flag]
      split
      · simp [reportedMeta]
      · exact h
  | fault i fam =>
    rcases faultStep_shape s i fam with hsh | ⟨_, _, hsh⟩
    · show flagAt (faultStep s i fam).1 j = true
      rw [hsh]
      exact h
    · show flagAt (faultStep s i fam).1 j = true
      rw [hsh]
      unfold flagAt at h ⊢
      rw [getD_set_flag]
      split
      · simp [reportedMeta]
      · exact h
  | sample =>
    show flagAt (sysShouldSample s).2 j = true
    rw [(sysShouldSample_shape s).1]
    exact h
  | stopOp => exact h
  | disableOp => exact h
  | enableOp => exact h

theorem step_report (cfg : PoolConfig) (s : PoolState) (op : Op) (j : Nat)
    (fam : ErrFamily)
    (h : (step cfg s op).2 = Res.reported (some (j, fam))) :
    flagAt s j = false ∧ flagAt (step cfg s op).1 j = true := by
  cases op with
  | alloc size la => cases h
  | sample => cases h
  | stopOp => cases h
  | disableOp => cases h
  | enableOp => cases h
  | dealloc p =>
    rcases deallocate_shape cfg s p with hsh | hsh | ⟨fam', hflag, hused, hsh⟩
    · have : (deallocate cfg s p).2 = none := by rw [hsh]
      rw [show (step cfg s (Op.dealloc p)).2 =
          Res.reported (deallocate cfg s p).2 from rfl, this] at h
      cases h
    · have : (deallocate cfg s p).2 = none := by rw [hsh]
      rw [show (step cfg s (Op.dealloc p)).2 =
          Res.reported (deallocate cfg s p).2 from rfl, this] at h
      cases h
    · have h2 : (deallocate cfg s p).2 = some (slotOfPtr cfg p, fam') := by
        rw [hsh]
      rw [show (step cfg s (Op.dealloc p)).2 =
          Res.reported (deallocate cfg s p).2 from rfl, h2] at h
      have h3 : slotOfPtr cfg p = j ∧ fam' = fam := by
        cases h
        exact ⟨rfl, rfl⟩
      rcases h3 with ⟨hj, _⟩
      subst hj
      have hlen : slotOfPtr cfg p < s.slots.length := by
        by_contra hc
        rw [getD_of_len_le _ _ _ (by omega)] at hused
        simp [defaultMeta] at hused
      refine ⟨hflag, ?_⟩
      show flagAt (deallocate cfg s p).1 (slotOfPtr cfg p) = true
      rw [hsh]
      unfold flagAt
      rw [getD_set_flag, if_pos ⟨rfl, hlen⟩]
      simp [reportedMeta]
  | fault i fam' =>
    rcases faultStep_shape s i fam' with hsh | ⟨hlen, hflag, hsh⟩
    · have : (faultStep s i fam').2 = none := by rw [hsh]
      rw [show (step cfg s (Op.fault i fam')).2 =
          Res.reported (faultStep s i fam').2 from rfl, this] at h
      cases h
    · have h2 : (faultStep s i fam').2 = some (i, fam') := by rw [hsh]
      rw [show (step cfg s (Op.fault i fam')).2 =
          Res.reported (faultStep s i fam').2 from rfl, h2] at h
      have h3 : i = j ∧ fam' = fam := by
        cases h
        exact ⟨rfl, rfl⟩
      rcases h3 with ⟨hj, _⟩
      subst hj
      refine ⟨hflag, ?_⟩
      show flagAt (faultStep s i fam').1 i = true
      rw [hsh]
      unfold flagAt
      rw [getD_set_flag, if_pos ⟨rfl, hlen⟩]
      simp [reportedMeta]

theorem reports_bounded (cfg : PoolConfig) (j : Nat) (fam : ErrFamily) :
    ∀ (ops : List Op) (s : PoolState),
      (outputs cfg s ops).count (Res.reported (some (j, fam))) ≤
        (if flagAt s j = true then 0 else 1) := by
  intro ops
  induction ops with
  | nil =>
    intro s
    simp [outputs]
  | cons op ops ih =>
    intro s
    show ((step cfg s op).2 :: outputs cfg (step cfg s op).1 ops).count _ ≤ _
    rw [List.count_cons]
    by_cases hres : (step cfg s op).2 = Res.reported (some (j, fam))
    · rcases step_report cfg s op j fam hres with ⟨h1, h2⟩
      have h3 := ih (step cfg s op).1
      rw [if_pos h2] at h3
      have h6 : (outputs cfg (step cfg s op).1 ops).count
          (Res.reported (some (j, fam))) = 0 := by omega
      have h7 : ((step cfg s op).2 == Res.reported (some (j, fam))) = true := by
        simpa using hres
      rw [h6, h1, h7]
      simp
    · have h3 := ih (step cfg s op).1
      have h4 : ((step cfg s op).2 == Res.reported (some (j, fam))) = false := by
        simpa using hres
      have h5 : (if flagAt (step cfg s op).1 j = true then 0 else 1) ≤
          (if flagAt s j = true then 0 else 1) := by
        by_cases h6 : flagAt s j = true
        · rw [if_pos h6, if_pos (flagAt_mono_step cfg s op j h6)]
        · rw [if_neg h6]
          split <;> omega
      rw [h4]
      norm_num
      omega

/-- C1: in recoverable mode, over every operation sequence from the
initial pool state, at most one error report is ever emitted for each
(slot, error-family) pair: the first report sets the slot's
`had_error_reported` flag, and every later double free, invalid free or
fault on that slot is a silent no-op. -/
theorem at_most_one_report_per_slot_family (cfg : PoolConfig)
    (seed asrpo : Nat) (ops : List Op) (j : Nat) (fam : ErrFamily) :
    (outputs cfg (initState cfg seed asrpo) ops).count
      (Res.reported (some (j, fam))) ≤ 1 := by
  have h := reports_bounded cfg j fam ops (initState cfg seed asrpo)
  have hflag : flagAt (initState cfg seed asrpo) j = false := by
    unfold flagAt initState
    simp only [getD_replicate]
    rfl
  rw [hflag] at h
  simpa using h

end GwpAsan

namespace GwpAsan

/-! ## Stop is terminal -/

theorem slotStates_set_reported (s : PoolState) (i : Nat) :
    slotStates { s with slots := s.slots.set i (reportedMeta (s.slots.getD i defaultMeta)) } = slotStates s := by
  unfold slotStates
  exact map_set_getD _ _ _ _ defaultMeta rfl

theorem step_stopped_benign (cfg : PoolConfig) (s : PoolState) (op : Op)
    (h : s.stopped = true) :
    (step cfg s op).1.stopped = true ∧
    slotStates (step cfg s op).1 = slotStates s ∧
    (∀ o, (step cfg s op).2 = Res.ptr o → o = none) ∧
    (∀ b, (step cfg s op).2 = Res.sampled b → b = false) := by
  cases op with
  | alloc size la =>
    have halloc : allocate cfg s size la = (none, s) := by
      unfold allocate
      rw [if_pos (Or.inr (Or.inr (Or.inl h)))]
    refine ⟨?_, ?_, ?_, ?_⟩
    · show (allocate cfg s size la).2.stopped = true
      rw [halloc]
      exact h
    · show slotStates (allocate cfg s size la).2 = slotStates s
      rw [halloc]
    · intro o ho
      have : (step cfg s (Op.alloc size la)).2 =
          Res.ptr ((allocate cfg s size la).1.map (·.2)) := rfl
      rw [this, halloc] at ho
      cases ho
      rfl
    · intro b hb
      cases hb
  | dealloc p =>
    have hde : deallocate cfg s p = (s, none) := by
      unfold deallocate
      rw [if_pos h]
    refine ⟨?_, ?_, ?_, ?_⟩
    · show (deallocate cfg s p).1.stopped = true
      rw [hde]
      exact h
    · show slotStates (deallocate cfg s p).1 = slotStates s
      rw [hde]
    · intro o ho
      cases ho
    · intro b hb
      cases hb
  | fault i fam =>
    rcases faultStep_shape s i fam with hsh | ⟨_, _, hsh⟩
    · refine ⟨?_, ?_, ?_, ?_⟩
      · show (faultStep s i fam).1.stopped = true
        rw [hsh]
        exact h
      · show slotStates (faultStep s i fam).1 = slotStates s
        rw [hsh]
      · intro o ho
        cases ho
      · intro b hb
        cases hb
    · refine ⟨?_, ?_, ?_, ?_⟩
      · show (faultStep s i fam).1.stopped = true
        rw [hsh]
        exact h
      · show slotStates (faultStep s i fam).1 = slotStates s
        rw [hsh]
        exact slotStates_set_reported s i
      · intro o ho
        cases ho
      · intro b hb
        cases hb
  | sample =>
    have hs : sysShouldSample s = (false, s) := (sysShouldSample_shape s).2 h
    refine ⟨?_, ?_, ?_, ?_⟩
    · show (sysShouldSample s).2.stopped = true
      rw [hs]
      exact h
    · show slotStates (sysShouldSample s).2 = slotStates s
      rw [hs]
    · intro o ho
      cases ho
    · intro b hb
      have hstep : (step cfg s Op.sample).2 =
          Res.sampled (sysShouldSample s).1 := rfl
      rw [hstep, hs] at hb
      cases hb
      rfl
  | stopOp =>
    refine ⟨rfl, rfl, ?_, ?_⟩
    · intro o ho
      cases ho
    · intro b hb
      cases hb
  | disableOp =>
    refine ⟨h, rfl, ?_, ?_⟩
    · intro o ho
      cases ho
    · intro b hb
      cases hb
  | enableOp =>
    refine ⟨h, rfl, ?_, ?_⟩
    · intro o ho
      cases ho
    · intro b hb
      cases hb

/-- C9: `stop()` is one-way and terminal: from any stopped pool state,
every later `allocate` returns no pointer, the sampling gate returns
false, the stop flag stays set, and the `Live`/`Freed` observable state of
every slot never changes again, over any operation sequence. -/
theorem stop_is_terminal (cfg : PoolConfig) (s : PoolState) (ops : List Op)
    (h : s.stopped = true) :
    (run cfg s ops).stopped = true ∧
    slotStates (run cfg s ops) = slotStates s ∧
    ∀ r ∈ outputs cfg s ops,
      (∀ o, r = Res.ptr o → o = none) ∧
      (∀ b, r = Res.sampled b → b = false) := by
  induction ops generalizing s with
  | nil => exact ⟨h, rfl, by simp [outputs]⟩
  | cons op ops ih =>
    rcases step_stopped_benign cfg s op h with ⟨h1, h2, h3, h4⟩
    rcases ih (step cfg s op).1 h1 with ⟨g1, g2, g3⟩
    refine ⟨g1, ?_, ?_⟩
    · show slotStates (run cfg (step cfg s op).1 ops) = slotStates s
      rw [g2, h2]
    · intro r hr
      have hr2 : r = (step cfg s op).2 ∨
          r ∈ outputs cfg (step cfg s op).1 ops := by
        simpa [outputs] using hr
      rcases hr2 with hr2 | hr2
      · subst hr2
        exact ⟨h3, h4⟩
      · exact g3 r hr2

theorem stop_is_terminal_witness :
    ({ initState ⟨1, 4096, 0, false⟩ 0 0 with stopped := true } : PoolState).stopped = true ∧
    ((run ⟨1, 4096, 0, false⟩ { initState ⟨1, 4096, 0, false⟩ 0 0 with stopped := true } [Op.alloc 1 false, Op.sample]).stopped = true ∧
     slotStates (run ⟨1, 4096, 0, false⟩ { initState ⟨1, 4096, 0, false⟩ 0 0 with stopped := true } [Op.alloc 1 false, Op.sample]) =
       slotStates { initState ⟨1, 4096, 0, false⟩ 0 0 with stopped := true } ∧
     ∀ r ∈ outputs ⟨1, 4096, 0, false⟩ { initState ⟨1, 4096, 0, false⟩ 0 0 with stopped := true } [Op.alloc 1 false, Op.sample],
       (∀ o, r = Res.ptr o → o = none) ∧
       (∀ b, r = Res.sampled b → b = false)) :=
  ⟨rfl, stop_is_terminal ⟨1, 4096, 0, false⟩
    { initState ⟨1, 4096, 0, false⟩ 0 0 with stopped := true }
    [Op.alloc 1 false, Op.sample] rfl⟩

end GwpAsan

namespace GwpAsan

/-! ## First-use ordering of slot reservation -/

theorem step_num_of_not_alloc (cfg : PoolConfig) (s : PoolState) (op : Op)
    (h : ∀ size la, op ≠ Op.alloc size la) :
    (step cfg s op).1.numSampledAllocations = s.numSampledAllocations := by
  cases op with
  | alloc size la => exact absurd rfl (h size la)
  | dealloc p =>
    rcases deallocate_shape cfg s p with hsh | hsh | ⟨fam, _, _, hsh⟩ <;>
      · show (deallocate cfg s p).1.numSampledAllocations = _
        rw [hsh]
  | fault i fam =>
    rcases faultStep_shape s i fam with hsh | ⟨_, _, hsh⟩ <;>
      · show (faultStep s i fam).1.numSampledAllocations = _
        rw [hsh]
  | sample =>
    show (sysShouldSample s).2.numSampledAllocations = _
    rw [(sysShouldSample_shape s).1]
  | stopOp => rfl
  | disableOp => rfl
  | enableOp => rfl

theorem allocIdxs_cons_alloc (cfg : PoolConfig) (s : PoolState) (size : Nat)
    (la : Bool) (ops : List Op) :
    allocIdxs cfg s (Op.alloc size la :: ops) =
      match (allocate cfg s size la).1 with
      | some ip => ip.1 :: allocIdxs cfg (step cfg s (Op.alloc size la)).1 ops
      | none => allocIdxs cfg (step cfg s (Op.alloc size la)).1 ops := rfl

theorem allocIdxs_first_use (cfg : PoolConfig) :
    ∀ (ops : List Op) (s : PoolState),
      List.take (cfg.maxSimultaneousAllocations - s.numSampledAllocations)
          (allocIdxs cfg s ops) =
        List.range' s.numSampledAllocations
          (min (cfg.maxSimultaneousAllocations - s.numSampledAllocations)
            (allocIdxs cfg s ops).length) := by
  intro ops
  induction ops with
  | nil =>
    intro s
    simp [allocIdxs]
  | cons op ops ih =>
    intro s
    cases op with
    | alloc size la =>
      rcases allocate_shape cfg s size la with hsh | ⟨hcond, i, s₁, hres, hsh⟩
      · have h1 : (allocate cfg s size la).1 = none := by rw [hsh]
        have h2 : (step cfg s (Op.alloc size la)).1 = s := by
          show (allocate cfg s size la).2 = s
          rw [hsh]
        rw [allocIdxs_cons_alloc, h1, h2]
        exact ih s
      · have h1 : (allocate cfg s size la).1 = some (i, userPtr cfg i size la) := by
          rw [hsh]
        rw [allocIdxs_cons_alloc, h1]
        rcases reserveSlot_shape cfg s with ⟨he, hlt⟩ | ⟨hge, _⟩
        · rw [he] at hres
          have hi : i = s.numSampledAllocations := by
            cases hres
            rfl
          have hs₁ : s₁ = { s with numSampledAllocations :=
              s.numSampledAllocations + 1 } := by
            cases hres
            rfl
          have hnum : (step cfg s (Op.alloc size la)).1.numSampledAllocations =
              s.numSampledAllocations + 1 := by
            show (allocate cfg s size la).2.numSampledAllocations = _
            rw [hsh, hs₁]
          have h3 := ih (step cfg s (Op.alloc size la)).1
          rw [hnum] at h3
          have h4 : cfg.maxSimultaneousAllocations - s.numSampledAllocations =
              (cfg.maxSimultaneousAllocations -
                (s.numSampledAllocations + 1)) + 1 := by omega
          rw [h4, hi, List.take_succ_cons, h3]
          have h5 : min ((cfg.maxSimultaneousAllocations -
                (s.numSampledAllocations + 1)) + 1)
              ((allocIdxs cfg (step cfg s (Op.alloc size la)).1 ops).length + 1) =
              (min (cfg.maxSimultaneousAllocations -
                (s.numSampledAllocations + 1))
               (allocIdxs cfg (step cfg s (Op.alloc size la)).1 ops).length) + 1 := by
            omega
          simp only [List.length_cons, h5, List.range'_succ]
        · have h0 : cfg.maxSimultaneousAllocations -
              s.numSampledAllocations = 0 := by omega
          rw [h0]
          simp
    | dealloc p =>
      have hnum := step_num_of_not_alloc cfg s (Op.dealloc p)
        (fun size la h => by cases h)
      have h3 := ih (step cfg s (Op.dealloc p)).1
      rw [hnum] at h3
      exact h3
    | fault i fam =>
      have hnum := step_num_of_not_alloc cfg s (Op.fault i fam)
        (fun size la h => by cases h)
      have h3 := ih (step cfg s (Op.fault i fam)).1
      rw [hnum] at h3
      exact h3
    | sample =>
      have hnum := step_num_of_not_alloc cfg s Op.sample
        (fun size la h => by cases h)
      have h3 := ih (step cfg s Op.sample).1
      rw [hnum] at h3
      exact h3
    | stopOp =>
      have h3 := ih (step cfg s Op.stopOp).1
      exact h3
    | disableOp =>
      have h3 := ih (step cfg s Op.disableOp).1
      exact h3
    | enableOp =>
      have h3 := ih (step cfg s Op.enableOp).1
      exact h3

/-- C7: over any operation sequence from the initial pool state, the first
`MaxSimultaneousAllocations` successful allocations receive the slot
indices `0, 1, 2, …` in first-use order (a monotonically increasing
counter), so they are pairwise distinct: no slot that has held an
allocation is reused before every slot has been used once. -/
theorem reserve_first_use_order (cfg : PoolConfig) (seed asrpo : Nat)
    (ops : List Op) :
    List.take cfg.maxSimultaneousAllocations
        (allocIdxs cfg (initState cfg seed asrpo) ops) =
      List.range (min cfg.maxSimultaneousAllocations
        (allocIdxs cfg (initState cfg seed asrpo) ops).length) ∧
    (List.take cfg.maxSimultaneousAllocations
        (allocIdxs cfg (initState cfg seed asrpo) ops)).Nodup := by
  have h := allocIdxs_first_use cfg ops (initState cfg seed asrpo)
  have h0 : (initState cfg seed asrpo).numSampledAllocations = 0 := rfl
  rw [h0, Nat.sub_zero] at h
  refine ⟨?_, ?_⟩
  · rw [h, List.range_eq_range']
  · rw [h]
    exact List.nodup_range' _ _

end GwpAsan

namespace GwpAsan

/-! ## Placement arithmetic -/

theorem alignOfSize_dvd_16 (size : Nat) : alignOfSize size ∣ 16 := by
  unfold alignOfSize
  split_ifs <;> norm_num

theorem alignOfSize_pos (size : Nat) : 0 < alignOfSize size := by
  unfold alignOfSize
  split_ifs <;> norm_num

theorem alignDown_ge (x a y : Nat) (ha : 0 < a) (hd : a ∣ y) (hyx : y ≤ x) :
    y ≤ alignDown x a := by
  unfold alignDown
  obtain ⟨k, hk⟩ := hd
  have hdm := Nat.div_add_mod x a
  have hmod : x % a < a := Nat.mod_lt _ ha
  have hq : x - x % a = a * (x / a) := by omega
  rw [hq, hk]
  have hka : k ≤ x / a := by
    rw [Nat.le_div_iff_mul_le ha]
    have hcomm : k * a = a * k := Nat.mul_comm k a
    omega
  exact Nat.mul_le_mul_left a hka

theorem userPtr_in_page (cfg : PoolConfig) (i size : Nat) (la : Bool)
    (h1 : 1 ≤ size) (h2 : size ≤ cfg.pageSize)
    (hb : 16 ∣ cfg.poolBase) (hps : 16 ∣ cfg.pageSize) :
    slotPageStart cfg i ≤ userPtr cfg i size la ∧
    userPtr cfg i size la + size ≤ slotPageStart cfg i + cfg.pageSize := by
  have hdps : alignOfSize size ∣ slotPageStart cfg i := by
    have h16 : (16 : Nat) ∣ slotPageStart cfg i := by
      unfold slotPageStart
      exact Nat.dvd_add hb (Dvd.dvd.mul_left hps _)
    exact (alignOfSize_dvd_16 size).trans h16
  unfold userPtr
  split
  · omega
  · split
    · omega
    · have hle : slotPageStart cfg i ≤ slotPageStart cfg i + cfg.pageSize - size := by
        omega
      have hgd := alignDown_ge (slotPageStart cfg i + cfg.pageSize - size)
        (alignOfSize size) (slotPageStart cfg i) (alignOfSize_pos size) hdps hle
      have hld : alignDown (slotPageStart cfg i + cfg.pageSize - size)
          (alignOfSize size) ≤ slotPageStart cfg i + cfg.pageSize - size :=
        Nat.sub_le _ _
      omega

theorem userPtr_pos (cfg : PoolConfig) (i size : Nat) (la : Bool)
    (h1 : 1 ≤ size) (h2 : size ≤ cfg.pageSize)
    (hb : 16 ∣ cfg.poolBase) (hps : 16 ∣ cfg.pageSize) :
    userPtr cfg i size la ≠ 0 := by
  have h := userPtr_in_page cfg i size la h1 h2 hb hps
  have h3 : 1 * cfg.pageSize ≤ (2 * i + 1) * cfg.pageSize :=
    Nat.mul_le_mul_right _ (by omega)
  have h4 : 0 < slotPageStart cfg i := by
    unfold slotPageStart
    omega
  omega

theorem pointerIsMine_of_in_page (cfg : PoolConfig) (i p size : Nat)
    (hi : i < cfg.maxSimultaneousAllocations) (hp : 0 < cfg.pageSize)
    (hs : 1 ≤ size)
    (h1 : slotPageStart cfg i ≤ p)
    (h2 : p + size ≤ slotPageStart cfg i + cfg.pageSize) :
    pointerIsMine cfg p = true := by
  unfold pointerIsMine
  simp only [decide_eq_true_eq]
  unfold slotPageStart at h1 h2
  have h3 : 1 * cfg.pageSize ≤ (2 * i + 1) * cfg.pageSize :=
    Nat.mul_le_mul_right _ (by omega)
  have h4 : (2 * i + 2) * cfg.pageSize ≤
      (2 * cfg.maxSimultaneousAllocations + 1) * cfg.pageSize :=
    Nat.mul_le_mul_right _ (by omega)
  have h5 : (2 * i + 2) * cfg.pageSize = (2 * i + 1) * cfg.pageSize + cfg.pageSize := by
    ring
  omega

end GwpAsan

namespace GwpAsan

/-! ## Free-slot indices stay in range -/

theorem getD_mem {α : Type _} (l : List α) (j : Nat) (d : α)
    (h : j < l.length) : l.getD j d ∈ l := by
  induction l generalizing j with
  | nil => simp at h
  | cons a t ih =>
    cases j with
    | zero => exact List.mem_cons_self a t
    | succ n =>
      simp only [List.getD, List.getElem?_cons_succ]
      exact List.mem_cons_of_mem a (ih n (by simpa using h))

theorem step_freeSlots_bounded (cfg : PoolConfig) (s : PoolState) (op : Op)
    (hmax : 0 < cfg.maxSimultaneousAllocations)
    (h : ∀ x ∈ s.freeSlots, x < cfg.maxSimultaneousAllocations) :
    ∀ x ∈ (step cfg s op).1.freeSlots, x < cfg.maxSimultaneousAllocations := by
  cases op with
  | alloc size la =>
    rcases allocate_shape cfg s size la with hsh | ⟨_, i, s₁, hres, hsh⟩
    · show ∀ x ∈ (allocate cfg s size la).2.freeSlots, _
      rw [hsh]
      exact h
    · show ∀ x ∈ (allocate cfg s size la).2.freeSlots, _
      rw [hsh]
      intro x hx
      have hx2 : x ∈ s₁.freeSlots := hx
      rcases reserveSlot_shape cfg s with ⟨he, _⟩ | ⟨_, ⟨he, _⟩ | ⟨j, hj, he⟩⟩
      · rw [he] at hres
        cases hres
        exact h x hx2
      · rw [he] at hres
        cases hres
      · rw [he] at hres
        cases hres
        exact h x (mem_swapRemove s.freeSlots j x hx2)
  | dealloc p =>
    rcases deallocate_shape cfg s p with hsh | hsh | ⟨fam, _, _, hsh⟩
    · show ∀ x ∈ (deallocate cfg s p).1.freeSlots, _
      rw [hsh]
      exact h
    · show ∀ x ∈ (deallocate cfg s p).1.freeSlots, _
      rw [hsh]
      intro x hx
      rcases List.mem_append.mp hx with hx2 | hx2
      · exact h x hx2
      · have hx3 : x = slotOfPtr cfg p := by simpa using hx2
        subst hx3
        unfold slotOfPtr
        omega
    · show ∀ x ∈ (deallocate cfg s p).1.freeSlots, _
      rw [hsh]
      exact h
  | fault i fam =>
    rcases faultStep_shape s i fam with hsh | ⟨_, _, hsh⟩ <;>
      · show ∀ x ∈ (faultStep s i fam).1.freeSlots, _
        rw [hsh]
        exact h
  | sample =>
    show ∀ x ∈ (sysShouldSample s).2.freeSlots, _
    rw [(sysShouldSample_shape s).1]
    exact h
  | stopOp => exact h
  | disableOp => exact h
  | enableOp => exact h

theorem run_freeSlots_bounded (cfg : PoolConfig) (ops : List Op)
    (hmax : 0 < cfg.maxSimultaneousAllocations) :
    ∀ s : PoolState, (∀ x ∈ s.freeSlots, x < cfg.maxSimultaneousAllocations) →
      ∀ x ∈ (run cfg s ops).freeSlots, x < cfg.maxSimultaneousAllocations := by
  induction ops with
  | nil =>
    intro s h
    exact h
  | cons op ops ih =>
    intro s h
    exact ih (step cfg s op).1 (step_freeSlots_bounded cfg s op hmax h)

/-- C3: every successful allocation from a reachable pool state returns a
pointer that satisfies `pointerIsMine` and whose byte range
`[p, p + size)` lies entirely within the single slot page of the reserved
slot, never touching a guard page (for a page-aligned pool with nonzero
page size). -/
theorem allocate_pointer_in_slot (cfg : PoolConfig) (seed asrpo : Nat)
    (ops : List Op) (size : Nat) (la : Bool) (i p : Nat)
    (hb : 16 ∣ cfg.poolBase) (hps : 16 ∣ cfg.pageSize)
    (hp : 0 < cfg.pageSize) (hmax : 0 < cfg.maxSimultaneousAllocations)
    (hsucc : (allocate cfg (run cfg (initState cfg seed asrpo) ops) size la).1 =
      some (i, p)) :
    pointerIsMine cfg p = true ∧
    slotPageStart cfg i ≤ p ∧
    p + size ≤ slotPageStart cfg i + cfg.pageSize := by
  rcases allocate_shape cfg (run cfg (initState cfg seed asrpo) ops) size la
    with hsh | ⟨hcond, i', s₁, hres, hsh⟩
  · rw [hsh] at hsucc
    simp at hsucc
  · rw [hsh] at hsucc
    injection hsucc with h1
    injection h1 with h2 h3
    subst h2
    subst h3
    have hsz1 : 1 ≤ size := by
      rcases Nat.eq_zero_or_pos size with h0 | h0
      · exact absurd (Or.inl h0) hcond
      · omega
    have hsz2 : size ≤ cfg.pageSize := by
      by_contra hc2
      exact hcond (Or.inr (Or.inl (by omega)))
    have hilt : i' < cfg.maxSimultaneousAllocations := by
      rcases reserveSlot_shape cfg (run cfg (initState cfg seed asrpo) ops)
        with ⟨he, hlt⟩ | ⟨hge, ⟨he, _⟩ | ⟨j, hj, he⟩⟩
      · rw [he] at hres
        cases hres
        exact hlt
      · rw [he] at hres
        cases hres
      · rw [he] at hres
        cases hres
        refine run_freeSlots_bounded cfg ops hmax (initState cfg seed asrpo)
          ?_ _ (getD_mem _ j 0 hj)
        intro x hx
        simp [initState] at hx
    have hin := userPtr_in_page cfg i' size la hsz1 hsz2 hb hps
    exact ⟨pointerIsMine_of_in_page cfg i' _ size hilt hp hsz1 hin.1 hin.2,
      hin.1, hin.2⟩

theorem allocate_pointer_in_slot_witness :
    ((16:Nat) ∣ (0:Nat) ∧ (16:Nat) ∣ (4096:Nat) ∧ 0 < (4096:Nat) ∧
     0 < (1:Nat) ∧
     (allocate ⟨1, 4096, 0, false⟩
       (run ⟨1, 4096, 0, false⟩ (initState ⟨1, 4096, 0, false⟩ 0 0) [])
       1 false).1 = some (0, 8191)) ∧
    (pointerIsMine ⟨1, 4096, 0, false⟩ 8191 = true ∧
     slotPageStart ⟨1, 4096, 0, false⟩ 0 ≤ 8191 ∧
     8191 + 1 ≤ slotPageStart ⟨1, 4096, 0, false⟩ 0 + 4096) :=
  ⟨⟨⟨0, rfl⟩, ⟨256, rfl⟩, by decide, by decide, by decide⟩,
   allocate_pointer_in_slot ⟨1, 4096, 0, false⟩ 0 0 [] 1 false 0 8191
     ⟨0, rfl⟩ ⟨256, rfl⟩ (by decide) (by decide) (by decide)⟩

end GwpAsan

namespace GwpAsan

/-- C5: `allocate` returns no pointer, with the state unchanged, exactly
when the size is zero or exceeds the page size, the pool is stopped or
disabled, the calling thread's `RecursiveGuard` is set, or no free slot is
available; otherwise it returns a non-null pointer. -/
theorem allocate_refusal (cfg : PoolConfig) (s : PoolState) (size : Nat)
    (la : Bool) (hp : 0 < cfg.pageSize) (hb : 16 ∣ cfg.poolBase)
    (hps : 16 ∣ cfg.pageSize) :
    ((allocate cfg s size la).1 = none ↔
      (size = 0 ∨ cfg.pageSize < size ∨ s.stopped = true ∨ s.disabled = true ∨
       s.tl.RecursiveGuard = true ∨
       (¬ s.numSampledAllocations < cfg.maxSimultaneousAllocations ∧
        s.freeSlots = []))) ∧
    ((allocate cfg s size la).1 = none → (allocate cfg s size la).2 = s) ∧
    (∀ i p, (allocate cfg s size la).1 = some (i, p) → p ≠ 0) := by
  unfold allocate
  split
  · rename_i hcond
    refine ⟨⟨fun _ => ?_, fun _ => rfl⟩, fun _ => rfl, ?_⟩
    · tauto
    · intro i p hc
      cases hc
  · rename_i hcond
    split
    · rename_i u heq
      refine ⟨⟨fun _ => ?_, fun _ => rfl⟩, fun _ => rfl, ?_⟩
      · rcases reserveSlot_shape cfg s with ⟨he, hlt⟩ | ⟨hge, ⟨he, hnil⟩ | ⟨j, hj, he⟩⟩
        · rw [he] at heq
          injection heq with h1 _
          cases h1
        · exact Or.inr (Or.inr (Or.inr (Or.inr (Or.inr ⟨hge, hnil⟩))))
        · rw [he] at heq
          injection heq with h1 _
          cases h1
      · intro i p hc
        cases hc
    · rename_i i s₁ heq
      refine ⟨?_, ?_, ?_⟩
      · constructor
        · intro hc
          cases hc
        · intro hrhs
          exfalso
          rcases hrhs with hA | hA | hA | hA | hA | ⟨hge, hnil⟩
          · exact hcond (Or.inl hA)
          · exact hcond (Or.inr (Or.inl hA))
          · exact hcond (Or.inr (Or.inr (Or.inl hA)))
          · exact hcond (Or.inr (Or.inr (Or.inr (Or.inl hA))))
          · exact hcond (Or.inr (Or.inr (Or.inr (Or.inr hA))))
          · rcases reserveSlot_shape cfg s with ⟨he, hlt⟩ | ⟨hge2, ⟨he, hnil2⟩ | ⟨j, hj, he⟩⟩
            · exact hge hlt
            · rw [he] at heq
              injection heq with h1 _
              cases h1
            · rw [hnil] at hj
              simp at hj
      · intro hc
        cases hc
      · intro i2 p2 hc
        injection hc with h1
        injection h1 with h2 h3
        rw [← h3]
        have hsz1 : 1 ≤ size := by
          rcases Nat.eq_zero_or_pos size with h0 | h0
          · exact absurd (Or.inl h0) hcond
          · omega
        have hsz2 : size ≤ cfg.pageSize := by
          by_contra hc2
          exact hcond (Or.inr (Or.inl (by omega)))
        exact userPtr_pos cfg i size la hsz1 hsz2 hb hps
  
theorem allocate_refusal_witness :
    (0 < (4096:Nat) ∧ (16:Nat) ∣ (0:Nat) ∧ (16:Nat) ∣ (4096:Nat)) ∧
    (((allocate ⟨1, 4096, 0, false⟩ (initState ⟨1, 4096, 0, false⟩ 0 0)
        1 false).1 = none ↔
      ((1:Nat) = 0 ∨ (4096:Nat) < 1 ∨
       (initState ⟨1, 4096, 0, false⟩ 0 0).stopped = true ∨
       (initState ⟨1, 4096, 0, false⟩ 0 0).disabled = true ∨
       (initState ⟨1, 4096, 0, false⟩ 0 0).tl.RecursiveGuard = true ∨
       (¬ (initState ⟨1, 4096, 0, false⟩ 0 0).numSampledAllocations < 1 ∧
        (initState ⟨1, 4096, 0, false⟩ 0 0).freeSlots = []))) ∧
     ((allocate ⟨1, 4096, 0, false⟩ (initState ⟨1, 4096, 0, false⟩ 0 0)
        1 false).1 = none →
      (allocate ⟨1, 4096, 0, false⟩ (initState ⟨1, 4096, 0, false⟩ 0 0)
        1 false).2 = initState ⟨1, 4096, 0, false⟩ 0 0) ∧
     (∀ i p, (allocate ⟨1, 4096, 0, false⟩ (initState ⟨1, 4096, 0, false⟩ 0 0)
        1 false).1 = some (i, p) → p ≠ 0)) :=
  ⟨⟨by decide, ⟨0, rfl⟩, ⟨256, rfl⟩⟩,
   allocate_refusal ⟨1, 4096, 0, false⟩ (initState ⟨1, 4096, 0, false⟩ 0 0)
     1 false (by decide) ⟨0, rfl⟩ ⟨256, rfl⟩⟩

/-- C4: for an in-pool pointer, `deallocate`'s classification is Double
Free exactly when the slot is not live, `ever_deallocated` is set and the
pointer equals the recorded allocation address; Invalid Free exactly when
the slot is live and the pointer differs from the recorded base; every
other in-pool case is a valid free. -/
theorem classifyFree_characterisation (cfg : PoolConfig) (s : PoolState)
    (p : Nat) (h : pointerIsMine cfg p = true) :
    (classifyFree cfg s p = FreeKind.DoubleFreeK ↔
      ((s.slots.getD (slotOfPtr cfg p) defaultMeta).isLive = false ∧
       (s.slots.getD (slotOfPtr cfg p) defaultMeta).everDeallocated = true ∧
       p = (s.slots.getD (slotOfPtr cfg p) defaultMeta).addr)) ∧
    (classifyFree cfg s p = FreeKind.InvalidFreeK ↔
      ((s.slots.getD (slotOfPtr cfg p) defaultMeta).isLive = true ∧
       p ≠ (s.slots.getD (slotOfPtr cfg p) defaultMeta).addr)) ∧
    (¬ ((s.slots.getD (slotOfPtr cfg p) defaultMeta).isLive = false ∧
        (s.slots.getD (slotOfPtr cfg p) defaultMeta).everDeallocated = true ∧
        p = (s.slots.getD (slotOfPtr cfg p) defaultMeta).addr) →
     ¬ ((s.slots.getD (slotOfPtr cfg p) defaultMeta).isLive = true ∧
        p ≠ (s.slots.getD (slotOfPtr cfg p) defaultMeta).addr) →
     classifyFree cfg s p = FreeKind.Valid) := by
  have hnot : ¬ pointerIsMine cfg p = false := by simp [h]
  unfold classifyFree
  rw [if_neg hnot]
  split_ifs with h1 h2
  · refine ⟨?_, ?_, ?_⟩
    · exact ⟨fun _ => h1, fun _ => rfl⟩
    · constructor
      · intro hc
        cases hc
      · intro hif
        rcases hif with ⟨hl, _⟩
        rw [h1.1] at hl
        exact Bool.noConfusion hl
    · intro hndf _
      exact absurd h1 hndf
  · refine ⟨?_, ?_, ?_⟩
    · constructor
      · intro hc
        cases hc
      · intro hdf
        exact absurd hdf h1
    · exact ⟨fun _ => h2, fun _ => rfl⟩
    · intro _ hnif
      exact absurd h2 hnif
  · refine ⟨?_, ?_, ?_⟩
    · constructor
      · intro hc
        cases hc
      · intro hdf
        exact absurd hdf h1
    · constructor
      · intro hc
        cases hc
      · intro hif
        exact absurd hif h2
    · intro _ _
      rfl

theorem classifyFree_characterisation_witness :
    pointerIsMine ⟨1, 4096, 0, false⟩ 4096 = true ∧
    ((classifyFree ⟨1, 4096, 0, false⟩ (initState ⟨1, 4096, 0, false⟩ 0 0)
        4096 = FreeKind.DoubleFreeK ↔
      (((initState ⟨1, 4096, 0, false⟩ 0 0).slots.getD
          (slotOfPtr ⟨1, 4096, 0, false⟩ 4096) defaultMeta).isLive = false ∧
       ((initState ⟨1, 4096, 0, false⟩ 0 0).slots.getD
          (slotOfPtr ⟨1, 4096, 0, false⟩ 4096) defaultMeta).everDeallocated = true ∧
       4096 = ((initState ⟨1, 4096, 0, false⟩ 0 0).slots.getD
          (slotOfPtr ⟨1, 4096, 0, false⟩ 4096) defaultMeta).addr)) ∧
     (classifyFree ⟨1, 4096, 0, false⟩ (initState ⟨1, 4096, 0, false⟩ 0 0)
        4096 = FreeKind.InvalidFreeK ↔
      (((initState ⟨1, 4096, 0, false⟩ 0 0).slots.getD
          (slotOfPtr ⟨1, 4096, 0, false⟩ 4096) defaultMeta).isLive = true ∧
       4096 ≠ ((initState ⟨1, 4096, 0, false⟩ 0 0).slots.getD
          (slotOfPtr ⟨1, 4096, 0, false⟩ 4096) defaultMeta).addr)) ∧
     (¬ (((initState ⟨1, 4096, 0, false⟩ 0 0).slots.getD
          (slotOfPtr ⟨1, 4096, 0, false⟩ 4096) defaultMeta).isLive = false ∧
         ((initState ⟨1, 4096, 0, false⟩ 0 0).slots.getD
          (slotOfPtr ⟨1, 4096, 0, false⟩ 4096) defaultMeta).everDeallocated = true ∧
         4096 = ((initState ⟨1, 4096, 0, false⟩ 0 0).slots.getD
          (slotOfPtr ⟨1, 4096, 0, false⟩ 4096) defaultMeta).addr) →
      ¬ (((initState ⟨1, 4096, 0, false⟩ 0 0).slots.getD
          (slotOfPtr ⟨1, 4096, 0, false⟩ 4096) defaultMeta).isLive = true ∧
         4096 ≠ ((initState ⟨1, 4096, 0, false⟩ 0 0).slots.getD
          (slotOfPtr ⟨1, 4096, 0, false⟩ 4096) defaultMeta).addr) →
      classifyFree ⟨1, 4096, 0, false⟩ (initState ⟨1, 4096, 0, false⟩ 0 0)
        4096 = FreeKind.Valid)) :=
  ⟨by decide,
   classifyFree_characterisation ⟨1, 4096, 0, false⟩
     (initState ⟨1, 4096, 0, false⟩ 0 0) 4096 (by decide)⟩

end GwpAsan
